import Mathlib

/-!
# go-http-monitor: the check evaluation engine of `main.go`

A shallow embedding of `addEntry` and of the body of `main` (the loop over
`y.Checks` and the exit-code decision), followed by theorems about it.

Modelling conventions.

* A Go `string` is a byte sequence; it is modelled as a `List Char`, one
  character per byte. `strings.Contains` is byte-substring search.
* Go's `int` is taken to be 64 bits wide (the common platforms); `int`,
  `int64` and `time.Duration` values are modelled as `Int`, and the
  arithmetic on durations wraps through `wrap64`.
* What the standard library answers during one loop iteration (request
  construction, `client.Do`, `io.ReadAll`, `net.ResolveTCPAddr`,
  `net.DialTCP`, `time.Since`) is an `Outcome` supplied from outside; the
  run takes one `Outcome` for each index of `y.Checks`.
* A nil-pointer dereference ends the run: the loop body returns
  `Except.error`.
* Reading the file and decoding the YAML are outside the model: the run
  starts from a decoded `Config`.
-/

set_option autoImplicit false

namespace Monitor

/-! ## Strings and library functions -/

/-- A Go string: a sequence of bytes, one `Char` per byte. -/
abbrev GoString := List Char

/-- The bytes of `sub` are the first bytes of `s`. -/
def startsWith : GoString → GoString → Bool
  | _, [] => true
  | [], _ :: _ => false
  | a :: s, b :: sub => a == b && startsWith s sub

/-- The test `strings.Contains(s, substr)`: `substr` occurs in `s` at some offset. -/
def Contains : GoString → GoString → Bool
  | [], sub => startsWith [] sub
  | a :: s, sub => startsWith (a :: s) sub || Contains s sub

/-- The function `strconv.Itoa`: decimal digits, with a leading minus sign for a
negative number. -/
def Itoa (i : Int) : GoString := (toString i).toList

/-- The function `strconv.FormatBool`. -/
def FormatBool (b : Bool) : GoString :=
  if b then "true".toList else "false".toList

/-- The loop of `fmtFrac`: `n` more digits of `v`, the lowest first, are put in
front of `buf` once a non-zero digit has been seen (`print`). -/
def fmtFracLoop : Nat → GoString → Nat → Bool → GoString × Nat × Bool
  | 0, buf, v, print => (buf, v, print)
  | n + 1, buf, v, print =>
    let digit := v % 10
    let print := print || digit != 0
    let buf := if print then Char.ofNat (digit + 48) :: buf else buf
    fmtFracLoop n buf (v / 10) print

/-- The helper `fmtFrac` of package `time`: the `prec` low decimal digits of `v`
as a fraction in front of `buf`, trailing zeros and a bare point omitted;
returns the new buffer and `v / 10^prec`. -/
def fmtFrac (buf : GoString) (v : Nat) (prec : Nat) : GoString × Nat :=
  let r := fmtFracLoop prec buf v false
  (if r.2.2 then '.' :: r.1 else r.1, r.2.1)

/-- The helper `fmtInt` of package `time`: the decimal digits of `v` in front of
`buf`. -/
def fmtInt (buf : GoString) (v : Nat) : GoString :=
  (Nat.repr v).toList ++ buf

/-- The method `time.Duration.String`, on a duration of `d` nanoseconds. -/
def DurationString (d : Int) : GoString :=
  let u := d.natAbs
  let body : GoString :=
    if u < 1000000000 then
      if u = 0 then "0s".toList
      else if u < 1000 then
        let r := fmtFrac "ns".toList u 0
        fmtInt r.1 r.2
      else if u < 1000000 then
        let r := fmtFrac [Char.ofNat 0xC2, Char.ofNat 0xB5, 's'] u 3
        fmtInt r.1 r.2
      else
        let r := fmtFrac "ms".toList u 6
        fmtInt r.1 r.2
    else
      let r := fmtFrac "s".toList u 9
      let u := r.2
      let buf := fmtInt r.1 (u % 60)
      let u := u / 60
      if u > 0 then
        let buf := fmtInt ('m' :: buf) (u % 60)
        let u := u / 60
        if u > 0 then fmtInt ('h' :: buf) u else buf
      else buf
  if d < 0 then '-' :: body else body

/-- Two's-complement wrap of an integer to 64 bits (`int64`). -/
def wrap64 (x : Int) : Int := (x + 2 ^ 63) % 2 ^ 64 - 2 ^ 63

/-- The constant `time.Millisecond`, in nanoseconds. -/
def Millisecond : Int := 1000000

/-! ## Constants of the program -/

/-- The call `fmt.Printf(InfoColor, s)`: `s` between the escape sequences of the
format `InfoColor` (bold blue, reset). -/
def InfoColor (s : GoString) : GoString := "\x1b[1;34m".toList ++ s ++ "\x1b[0m".toList

/-- The call `fmt.Printf(NoticeColor, s)` (bold cyan, reset). -/
def NoticeColor (s : GoString) : GoString := "\x1b[1;36m".toList ++ s ++ "\x1b[0m".toList

/-- The call `fmt.Printf(ErrorColor, s)` (bold red, reset). -/
def ErrorColor (s : GoString) : GoString := "\x1b[1;31m".toList ++ s ++ "\x1b[0m".toList

/-- The constant `CadenaSeparadora`: 122 dashes and a newline. -/
def CadenaSeparadora : GoString :=
  List.replicate 122 '-' ++ ['\n']

/-! ## Data model -/

/-- One element of `Config.Checks` (an anonymous struct in the source). The
pointer fields are `Option`s: `none` is the nil pointer of an absent key. -/
structure Check where
  Number : GoString
  URL : GoString
  StatusCode : Option Int
  Match : Option GoString
  ResponseTime : Option Int
  TCP : GoString
  Port : Option Int
  Payload : GoString
  Verbo : Option GoString
deriving DecidableEq, Repr

/-- The struct `Config`. -/
structure Config where
  Insecure : Bool
  TimeoutRequest : Int
  Verbose : Bool
  Checks : List Check
deriving DecidableEq, Repr

/-- The struct `CheckOutput`; `Status` is the field written as `available`. -/
structure CheckOutput where
  Number : GoString
  Resource : GoString
  Status : GoString
  Elapsed : GoString
deriving DecidableEq, Repr

/-- What `client.Do` answers: a transport error (`err != nil`), or a response
with its `resp.StatusCode` and the bytes `io.ReadAll(resp.Body)` returns. -/
inductive NetworkOutcome where
  | transportError
  | response (statusCode : Int) (content : GoString)
deriving DecidableEq, Repr

/-- What the library calls of one loop iteration answer. -/
structure Outcome where
  /-- The answer of `client.Do`; `none` when `http.NewRequest` returned no
  request (`req == nil`), so that `client.Do` never answers. -/
  http : Option NetworkOutcome
  /-- Whether `net.ResolveTCPAddr` returned an error (and a nil address). -/
  resolveErr : Bool
  /-- Whether `net.DialTCP`, given a resolved address, returned `err != nil`. -/
  dialErr : Bool
  /-- The value of `time.Since(start)`, an `int64` count of nanoseconds. -/
  elapsed : Int
deriving DecidableEq, Repr

/-- A run-time panic, with the source line that raises it. -/
inductive Panic where
  | nilDereference (line : Nat)
deriving DecidableEq, Repr

/-- The variables of `main` that the loop updates, and what was printed:
`hostUnreachable`, `results.Results`, and the writes to standard output, one
element per `fmt.Printf` / `fmt.Println` call. -/
structure State where
  hostUnreachable : Bool
  results : List CheckOutput
  stdout : List GoString
deriving DecidableEq, Repr

/-- One write to standard output. -/
def State.print (st : State) (s : GoString) : State :=
  { st with stdout := st.stdout ++ [s] }

/-! ## The program -/

/-- The function `addEntry` (lines 60-69). -/
def addEntry (results : List CheckOutput) (url : GoString) (active : Bool) (elapsed : Int)
    (number : GoString) : List CheckOutput :=
  let check : CheckOutput :=
    { Number := number
      Resource := url
      Status := FormatBool (!active)
      Elapsed := DurationString elapsed }
  results ++ [check]

/-- The test of lines 160-161 and 189-190:
`time.Duration(*plugin.ResponseTime) * time.Millisecond - elapsed < 0`, each
operation on `int64`. -/
def responseTimeExceeded (responseTime elapsed : Int) : Bool :=
  let responseTimeDuration := wrap64 (responseTime * Millisecond)
  decide (wrap64 (responseTimeDuration - elapsed) < 0)

/-- Lines 127-136: with `verbose`, the url and the body are printed, cut to 1000
bytes (`fmt.Println` adds the newline). -/
def printVerbose (y : Config) (plugin : Check) (content : GoString) (st : State) : State :=
  if y.Verbose then
    let tmpString := plugin.Number ++ " URL : ".toList ++ plugin.URL ++ "\n".toList
    let tmpString := tmpString ++ ("Body : ".toList ++ content)
    if tmpString.length > 1000 then st.print (tmpString.take 1000 ++ "\n".toList)
    else st.print (tmpString.take tmpString.length ++ "\n".toList)
  else st

/-- The HTTP branch of the loop body (lines 106-174). The error of
`http.NewRequest` is discarded: on a failure `req` is nil, and is dereferenced
by `req.Header.Set` (line 109) or inside `client.Do` (line 113). -/
def httpCheck (y : Config) (plugin : Check) (o : Outcome) (st : State) : Except Panic State :=
  match plugin.Verbo with
  | none => .error (.nilDereference 107)
  | some verbo =>
    match o.http with
    | none =>
      if verbo = "POST".toList then .error (.nilDereference 109)
      else .error (.nilDereference 113)
    | some .transportError =>
      let elapsed := o.elapsed
      let tmpString := plugin.Number ++ " [NOK] ".toList ++ plugin.URL ++ "\n".toList
      let st := st.print (ErrorColor tmpString)
      let st := { st with hostUnreachable := true }
      .ok { st with
        results := addEntry st.results plugin.URL st.hostUnreachable elapsed plugin.Number }
    | some (.response statusCode content) =>
      let elapsed := o.elapsed
      let st := printVerbose y plugin content st
      if (plugin.StatusCode.any fun sc => sc != statusCode) then
        let tmpString := plugin.Number ++ " [NOK] ".toList ++ plugin.URL ++ "\n".toList
        let st := st.print (ErrorColor tmpString)
        let st := { st with hostUnreachable := true }
        .ok { st with
          results := addEntry st.results plugin.URL st.hostUnreachable elapsed plugin.Number }
      else if (plugin.Match.any fun m => !Contains content m) then
        let tmpString := plugin.Number ++ " [NOK] ".toList ++ plugin.URL ++ "\n".toList
        let st := st.print (ErrorColor tmpString)
        let st := { st with hostUnreachable := true }
        .ok { st with
          results := addEntry st.results plugin.URL st.hostUnreachable elapsed plugin.Number }
      else
        match plugin.ResponseTime with
        | some rt =>
          if responseTimeExceeded rt elapsed then
            let responseTime := Itoa rt
            let tmpString := plugin.Number ++ " [NOK]  ".toList ++ plugin.URL
              ++ ", Tiempo transcurrido: ".toList ++ DurationString elapsed
              ++ " en lugar de ".toList ++ responseTime ++ "\n".toList
            let st := st.print (ErrorColor tmpString)
            let st := { st with hostUnreachable := true }
            .ok { st with
              results := addEntry st.results plugin.URL st.hostUnreachable elapsed plugin.Number }
          else
            let tmpString := plugin.Number ++ " [OK] ".toList ++ plugin.URL ++ "\n".toList
            let st := st.print (NoticeColor tmpString)
            .ok { st with results := addEntry st.results plugin.URL true elapsed plugin.Number }
        | none =>
          let tmpString := plugin.Number ++ " [OK] ".toList ++ plugin.URL ++ "\n".toList
          let st := st.print (NoticeColor tmpString)
          .ok { st with results := addEntry st.results plugin.URL true elapsed plugin.Number }

/-- The TCP branch of the loop body (lines 176-201). `net.DialTCP` returns an
error for the nil address left by a failed `net.ResolveTCPAddr`. -/
def tcpCheck (plugin : Check) (o : Outcome) (st : State) : Except Panic State :=
  match plugin.Port with
  | none => .error (.nilDereference 176)
  | some port =>
    let servAddr := plugin.TCP ++ ":".toList ++ Itoa port
    -- a failed resolution leaves `tcpAddr` nil, for which `net.DialTCP` returns an error
    let err := o.resolveErr || o.dialErr
    let elapsed := o.elapsed
    if err then
      let st := { st with hostUnreachable := true }
      let tmpString := plugin.Number ++ " [NOK] TCP:".toList ++ servAddr ++ "\n".toList
      let st := st.print (ErrorColor tmpString)
      .ok { st with
        results := addEntry st.results servAddr st.hostUnreachable elapsed plugin.Number }
    else
      match plugin.ResponseTime with
      | some rt =>
        if responseTimeExceeded rt elapsed then
          let responseTime := Itoa rt
          let tmpString := plugin.Number ++ " [NOK] TCP:".toList ++ servAddr
            ++ ", Tiempo transcurrido: ".toList ++ DurationString elapsed
            ++ " en lugar de ".toList ++ responseTime ++ "\n".toList
          let st := st.print (ErrorColor tmpString)
          let st := { st with hostUnreachable := true }
          .ok { st with
            results := addEntry st.results plugin.URL st.hostUnreachable elapsed plugin.Number }
        else
          let tmpString := plugin.Number ++ " [OK] TCP:".toList ++ servAddr ++ "\n".toList
          let st := st.print (NoticeColor tmpString)
          .ok { st with results := addEntry st.results servAddr true elapsed plugin.Number }
      | none =>
        let tmpString := plugin.Number ++ " [OK] TCP:".toList ++ servAddr ++ "\n".toList
        let st := st.print (NoticeColor tmpString)
        .ok { st with results := addEntry st.results servAddr true elapsed plugin.Number }

/-- Lines 101-103: the separator printed in front of a check whose number
contains ".0". -/
def printSeparator (plugin : Check) (st : State) : State :=
  if Contains plugin.Number ".0".toList then st.print (InfoColor CadenaSeparadora) else st

/-- The body of the loop over `y.Checks` (lines 96-202), on the check `plugin`. -/
def loopBody (y : Config) (plugin : Check) (o : Outcome) (st : State) : Except Panic State :=
  let st := printSeparator plugin st
  if Contains plugin.URL "http".toList then httpCheck y plugin o st
  else if plugin.TCP ≠ [] then tcpCheck plugin o st
  else .ok st

/-- The loop `for index, plugin := range y.Checks` from index `index` on;
`env i` is what the library answers during iteration `i`. -/
def runChecks (y : Config) (env : Nat → Outcome) : Nat → List Check → State → Except Panic State
  | _, [], st => .ok st
  | index, plugin :: rest, st =>
    match loopBody y plugin (env index) st with
    | .ok st => runChecks y env (index + 1) rest st
    | .error p => .error p

/-- The variables at line 91, before the loop. -/
def initState : State := { hostUnreachable := false, results := [], stdout := [] }

/-- How the process ends: `os.Exit` with a code after `output.json` was written
from `results`, or a panic (no file written, exit status 2). -/
inductive ProcessResult where
  | exited (code : Nat) (results : List CheckOutput) (stdout : List GoString)
  | panicked (p : Panic)
deriving DecidableEq, Repr

/-- The function `main` from line 91 on, for the decoded configuration `y`. -/
def main (y : Config) (env : Nat → Outcome) : ProcessResult :=
  match runChecks y env 0 y.Checks initState with
  | .error p => .panicked p
  | .ok st =>
    if st.hostUnreachable then .exited 1 st.results st.stdout
    else .exited 0 st.results st.stdout

/-- The exit status of the process; the Go runtime ends a panicking program with 2. -/
def ProcessResult.exitCode : ProcessResult → Nat
  | .exited code _ _ => code
  | .panicked _ => 2

/-! ## Vocabulary of the specification -/

/-- The bytes `sub` occur in `s`: some bytes, then `sub`, then the rest. -/
def IsSubstring (sub s : GoString) : Prop := ∃ pre post : GoString, s = pre ++ sub ++ post

/-- The check is of HTTP or TCP shape: its url contains "http", or its tcp host
is not empty. -/
def hasShape (plugin : Check) : Bool :=
  Contains plugin.URL "http".toList || decide (plugin.TCP ≠ [])

/-- The check is executed up to its network outcome: an HTTP check has its
method and its request was built, a TCP check has its port. -/
def Executes (plugin : Check) (o : Outcome) : Bool :=
  if Contains plugin.URL "http".toList then plugin.Verbo.isSome && o.http.isSome
  else if plugin.TCP ≠ [] then plugin.Port.isSome
  else true

/-- An executed HTTP check failed: transport error, or a mismatch of one of the
predicates that are present (the time predicate as the program computes it). -/
def httpFailed (plugin : Check) (net : NetworkOutcome) (elapsed : Int) : Bool :=
  match net with
  | .transportError => true
  | .response statusCode content =>
    plugin.StatusCode.any (fun sc => sc != statusCode)
      || plugin.Match.any (fun m => !Contains content m)
      || plugin.ResponseTime.any (fun rt => responseTimeExceeded rt elapsed)

/-- An executed TCP check failed: resolving or dialing failed, or the time
predicate is present and not met (as the program computes it). -/
def tcpFailed (plugin : Check) (o : Outcome) : Bool :=
  (o.resolveErr || o.dialErr)
    || plugin.ResponseTime.any (fun rt => responseTimeExceeded rt o.elapsed)

/-- An executed check failed; a check of neither shape, or one whose request was
not built, has no outcome that fails. -/
def checkFailed (plugin : Check) (o : Outcome) : Bool :=
  if Contains plugin.URL "http".toList then
    match o.http with
    | some net => httpFailed plugin net o.elapsed
    | none => false
  else if plugin.TCP ≠ [] then tcpFailed plugin o
  else false

/-- The pass condition of an HTTP check in the words of the specification: no
transport error, and each predicate absent or met, the time ceiling compared
as exact integers. -/
def HTTPPasses (plugin : Check) (net : NetworkOutcome) (elapsed : Int) : Prop :=
  ∃ statusCode content, net = .response statusCode content ∧
    (∀ sc, plugin.StatusCode = some sc → sc = statusCode) ∧
    (∀ m, plugin.Match = some m → IsSubstring m content) ∧
    (∀ r, plugin.ResponseTime = some r → elapsed ≤ r * 1000000)

/-- The line an HTTP check prints when it passes. -/
def httpOKLine (plugin : Check) : GoString :=
  NoticeColor (plugin.Number ++ " [OK] ".toList ++ plugin.URL ++ "\n".toList)

/-- The address a TCP check probes: host, colon, decimal port. -/
def tcpTarget (plugin : Check) (port : Int) : GoString :=
  plugin.TCP ++ ":".toList ++ Itoa port

/-- The line a TCP check prints when it passes. -/
def tcpOKLine (plugin : Check) (port : Int) : GoString :=
  NoticeColor (plugin.Number ++ " [OK] TCP:".toList ++ tcpTarget plugin port ++ "\n".toList)

/-- The step from `st` to `st1` is a pass: the last line printed is the OK line
`line` and the unreachable flag is as it was. -/
def PassedWith (line : GoString) (st st1 : State) : Prop :=
  st1.stdout.getLast? = some line ∧ st1.hostUnreachable = st.hostUnreachable

/-- The step ending in `st1` is a failure: the unreachable flag is set and the
last line printed is a `[NOK]` line in the error colour. -/
def FailedIn (st1 : State) : Prop :=
  st1.hostUnreachable = true ∧
    ∃ a b : GoString, st1.stdout.getLast? = some (ErrorColor (a ++ " [NOK] ".toList ++ b))

/-! ## Example inputs -/

/-- What the library answers in the examples: to an HTTP request a response with
status 200 and body "ok", to a TCP dial a connection, each after 50ms. -/
def okOutcome : Outcome :=
  { http := some (.response 200 "ok".toList), resolveErr := false, dialErr := false,
    elapsed := 50000000 }

/-- The HTTP check of the specification's example scenario. -/
def healthCheck : Check :=
  { Number := "1.0".toList, URL := "http://example.test/health".toList,
    StatusCode := some 200, Match := none, ResponseTime := some 100,
    TCP := [], Port := none, Payload := [], Verbo := some "GET".toList }

/-- A TCP check of port 80 with a ceiling of 10ms. -/
def tcpExample : Check :=
  { Number := "2.1".toList, URL := [], StatusCode := none, Match := none,
    ResponseTime := some 10, TCP := "127.0.0.1".toList, Port := some 80,
    Payload := [], Verbo := none }

/-- A definition with neither url nor tcp host. -/
def emptyCheck : Check :=
  { Number := "3.0".toList, URL := [], StatusCode := some 200, Match := none,
    ResponseTime := some 1, TCP := [], Port := none, Payload := [], Verbo := none }

/-- The HTTP check without its `verbo` key. -/
def noVerboCheck : Check := { healthCheck with Verbo := none }

/-- The TCP check without its `port` key. -/
def noPortCheck : Check := { tcpExample with Port := none }

/-- The HTTP check with a ceiling of 10000000000000 ms. -/
def hugeCeilingCheck : Check := { healthCheck with ResponseTime := some 10000000000000 }

/-- The HTTP check with a tcp host and a port as well. -/
def bothCheck : Check := { healthCheck with TCP := "127.0.0.1".toList, Port := some 80 }

/-- A configuration of the three example checks. -/
def exampleConfig : Config :=
  { Insecure := false, TimeoutRequest := 5, Verbose := false,
    Checks := [healthCheck, emptyCheck, tcpExample] }

/-- A configuration whose only check is the HTTP check without `verbo`. -/
def noVerboConfig : Config := { exampleConfig with Checks := [noVerboCheck] }

/-- A configuration of the TCP check, which fails on a connection after 50ms,
followed by the HTTP check without `verbo`. -/
def failThenPanicConfig : Config := { exampleConfig with Checks := [tcpExample, noVerboCheck] }

/-- A configuration whose only check is the HTTP check with the ceiling of
10000000000000 ms. -/
def hugeCeilingConfig : Config := { exampleConfig with Checks := [hugeCeilingCheck] }

/-! ## Lemmas on strings and on the time test -/

/-- The bytes of `sub` start `s` exactly when `s` is `sub` followed by some bytes. -/
theorem startsWith_iff (s sub : GoString) :
    startsWith s sub = true ↔ ∃ post : GoString, s = sub ++ post := by
  induction sub generalizing s with
  | nil => cases s <;> simp [startsWith]
  | cons b sub ih =>
    cases s with
    | nil => simp [startsWith]
    | cons a s =>
      simp only [startsWith, Bool.and_eq_true, beq_iff_eq, ih, List.cons_append, List.cons.injEq]
      constructor
      · rintro ⟨rfl, post, rfl⟩
        exact ⟨post, rfl, rfl⟩
      · rintro ⟨post, rfl, rfl⟩
        exact ⟨rfl, post, rfl⟩

/-- The search `strings.Contains` finds `sub` exactly when `sub` occurs in `s`. -/
theorem Contains_iff (s sub : GoString) : Contains s sub = true ↔ IsSubstring sub s := by
  induction s with
  | nil =>
    simp only [Contains, startsWith_iff, IsSubstring]
    constructor
    · rintro ⟨post, h⟩
      exact ⟨[], post, by simpa using h⟩
    · rintro ⟨pre, post, h⟩
      have h1 : pre ++ sub ++ post = [] := h.symm
      simp only [List.append_eq_nil] at h1
      exact ⟨[], by simp [h1.1.2]⟩
  | cons a s ih =>
    simp only [Contains, Bool.or_eq_true, startsWith_iff, ih, IsSubstring]
    constructor
    · rintro (⟨post, h⟩ | ⟨pre, post, h⟩)
      · exact ⟨[], post, by simpa using h⟩
      · exact ⟨a :: pre, post, by simp [h]⟩
    · rintro ⟨pre, post, h⟩
      cases pre with
      | nil => exact Or.inl ⟨post, by simpa using h⟩
      | cons p pre =>
        simp only [List.cons_append, List.cons.injEq] at h
        exact Or.inr ⟨pre, post, h.2⟩

/-- A value in the range of `int64` is not changed by wrapping. -/
theorem wrap64_eq (x : Int) (h1 : -2 ^ 63 ≤ x) (h2 : x < 2 ^ 63) : wrap64 x = x := by
  unfold wrap64
  rw [Int.emod_eq_of_lt (by omega) (by omega)]
  omega

/-- For a ceiling between 0 and 9223372036854 ms and a non-negative `int64`
elapsed time no operation of the time test wraps: the test is the exact
comparison. -/
theorem responseTimeExceeded_iff (r e : Int) (hr0 : 0 ≤ r) (hr : r ≤ 9223372036854)
    (he0 : 0 ≤ e) (he : e < 2 ^ 63) :
    responseTimeExceeded r e = true ↔ r * 1000000 < e := by
  unfold responseTimeExceeded Millisecond
  simp only [decide_eq_true_eq]
  rw [wrap64_eq (r * 1000000) (by omega) (by omega), wrap64_eq _ (by omega) (by omega)]
  omega

/-- The time predicate, absent or in range, is not violated exactly when the
elapsed time does not exceed the ceiling as exact integers. -/
theorem timeAny_eq_false_iff (rt : Option Int) (e : Int)
    (hrt : ∀ r, rt = some r → 0 ≤ r ∧ r ≤ 9223372036854) (he0 : 0 ≤ e) (he : e < 2 ^ 63) :
    rt.any (fun r => responseTimeExceeded r e) = false ↔ ∀ r, rt = some r → e ≤ r * 1000000 := by
  cases rt with
  | none => simp
  | some r =>
    have hr := hrt r rfl
    have := responseTimeExceeded_iff r e hr.1 hr.2 he0 he
    simp only [Option.any_some, Option.some.injEq, forall_eq']
    rw [← Bool.not_eq_true, this]
    omega

/-- A line in the error colour is never a line in the notice colour. -/
theorem errorColor_ne_noticeColor (s t : GoString) : ErrorColor s ≠ NoticeColor t := by
  intro h
  have h1 : ErrorColor s = '\x1b' :: '[' :: '1' :: ';' :: '3' :: '1' :: 'm' :: (s ++ "\x1b[0m".toList) :=
    rfl
  have h2 : NoticeColor t = '\x1b' :: '[' :: '1' :: ';' :: '3' :: '6' :: 'm' :: (t ++ "\x1b[0m".toList) :=
    rfl
  rw [h1, h2] at h
  simp at h

/-- No step is both a failure and a pass. -/
theorem not_failed_and_passed (line0 : GoString) (st st' : State) :
    ¬ (FailedIn st' ∧ PassedWith (NoticeColor line0) st st') := by
  rintro ⟨⟨-, a, b, hf⟩, hp, -⟩
  rw [hf] at hp
  exact errorColor_ne_noticeColor _ _ (Option.some.inj hp)

/-! ## Lemmas on the state -/

@[simp] theorem print_hostUnreachable (st : State) (s : GoString) :
    (st.print s).hostUnreachable = st.hostUnreachable := rfl

@[simp] theorem print_results (st : State) (s : GoString) :
    (st.print s).results = st.results := rfl

@[simp] theorem print_stdout (st : State) (s : GoString) :
    (st.print s).stdout = st.stdout ++ [s] := rfl

@[simp] theorem printVerbose_hostUnreachable (y : Config) (plugin : Check) (c : GoString)
    (st : State) : (printVerbose y plugin c st).hostUnreachable = st.hostUnreachable := by
  unfold printVerbose
  dsimp only
  split_ifs <;> rfl

@[simp] theorem printVerbose_results (y : Config) (plugin : Check) (c : GoString)
    (st : State) : (printVerbose y plugin c st).results = st.results := by
  unfold printVerbose
  dsimp only
  split_ifs <;> rfl

@[simp] theorem printSeparator_hostUnreachable (plugin : Check) (st : State) :
    (printSeparator plugin st).hostUnreachable = st.hostUnreachable := by
  unfold printSeparator
  split_ifs <;> rfl

@[simp] theorem printSeparator_results (plugin : Check) (st : State) :
    (printSeparator plugin st).results = st.results := by
  unfold printSeparator
  split_ifs <;> rfl

/-! ## Lemmas on one check -/

/-- The HTTP branch, once the method is present and `client.Do` has answered: it
returns, raises the flag exactly on a failure, appends one entry for the url,
and its last line is the OK line or a NOK line. -/
theorem httpCheck_spec (y : Config) (plugin : Check) (o : Outcome) (st : State) (verbo : GoString)
    (net : NetworkOutcome) (hv : plugin.Verbo = some verbo) (hnet : o.http = some net) :
    ∃ st', httpCheck y plugin o st = .ok st' ∧
      st'.hostUnreachable = (st.hostUnreachable || httpFailed plugin net o.elapsed) ∧
      st'.results = st.results ++ [{ Number := plugin.Number, Resource := plugin.URL,
                                      Status := "false".toList,
                                      Elapsed := DurationString o.elapsed }] ∧
      ∃ out line, st'.stdout = out ++ [line] ∧
        (httpFailed plugin net o.elapsed = false → line = httpOKLine plugin) ∧
        (httpFailed plugin net o.elapsed = true →
          ∃ a b, line = ErrorColor (a ++ " [NOK] ".toList ++ b)) := by
  unfold httpCheck
  rw [hv]
  simp only [hnet]
  cases net with
  | transportError =>
    refine ⟨_, rfl, ?_, ?_, _, _, rfl, ?_, ?_⟩
    · simp [httpFailed]
    · simp [addEntry, FormatBool]
    · simp [httpFailed]
    · intro _
      exact ⟨plugin.Number, plugin.URL ++ "\n".toList, by simp [List.append_assoc]⟩
  | response statusCode content =>
    dsimp only
    split_ifs with h2 h3
    · refine ⟨_, rfl, ?_, ?_, _, _, rfl, ?_, ?_⟩
      · simp [httpFailed, h2]
      · simp [addEntry, FormatBool]
      · simp [httpFailed, h2]
      · intro _
        exact ⟨plugin.Number, plugin.URL ++ "\n".toList, by simp [List.append_assoc]⟩
    · refine ⟨_, rfl, ?_, ?_, _, _, rfl, ?_, ?_⟩
      · simp [httpFailed, h3]
      · simp [addEntry, FormatBool]
      · simp [httpFailed, h3]
      · intro _
        exact ⟨plugin.Number, plugin.URL ++ "\n".toList, by simp [List.append_assoc]⟩
    · split
      · rename_i rt hrt
        split_ifs with h4
        · refine ⟨_, rfl, ?_, ?_, _, _, rfl, ?_, ?_⟩
          · simp [httpFailed, hrt, h4]
          · simp [addEntry, FormatBool]
          · simp [httpFailed, hrt, h4]
          · intro _
            exact ⟨plugin.Number, _, by simp [List.append_assoc]; rfl⟩
        · refine ⟨_, rfl, ?_, ?_, _, _, rfl, ?_, ?_⟩
          · simp [httpFailed, hrt, h4, h2, h3]
          · simp [addEntry, FormatBool]
          · intro _; rfl
          · simp [httpFailed, hrt, h4, h2, h3]
      · rename_i hrt
        refine ⟨_, rfl, ?_, ?_, _, _, rfl, ?_, ?_⟩
        · simp [httpFailed, hrt, h2, h3]
        · simp [addEntry, FormatBool]
        · intro _; rfl
        · simp [httpFailed, hrt, h2, h3]

/-- The TCP branch, once the port is present: it returns, raises the flag exactly
on a failure, appends one entry, and its last line is the OK line or a NOK
line. -/
theorem tcpCheck_spec (plugin : Check) (o : Outcome) (st : State) (port : Int)
    (hp : plugin.Port = some port) :
    ∃ st', tcpCheck plugin o st = .ok st' ∧
      st'.hostUnreachable = (st.hostUnreachable || tcpFailed plugin o) ∧
      (∃ target, st'.results = st.results ++ [(⟨plugin.Number, target, "false".toList, DurationString o.elapsed⟩ : CheckOutput)]) ∧
      ∃ out line, st'.stdout = out ++ [line] ∧
        (tcpFailed plugin o = false → line = tcpOKLine plugin port) ∧
        (tcpFailed plugin o = true → ∃ a b, line = ErrorColor (a ++ " [NOK] ".toList ++ b)) := by
  unfold tcpCheck
  rw [hp]
  dsimp only
  by_cases h1 : (o.resolveErr || o.dialErr) = true
  · rw [if_pos h1]
    refine ⟨_, rfl, ?_, ⟨tcpTarget plugin port, ?_⟩, _, _, rfl, ?_, ?_⟩
    · simp [tcpFailed, h1]
    · simp [addEntry, FormatBool, tcpTarget]
    · simp [tcpFailed, h1]
    · intro _
      exact ⟨plugin.Number, _, by
        show ErrorColor (plugin.Number ++ (" [NOK] ".toList ++ "TCP:".toList) ++ _ ++ _) = _
        simp only [List.append_assoc]
        rfl⟩
  · rw [if_neg h1]
    have h1' : (o.resolveErr || o.dialErr) = false := by simpa using h1
    split
    · rename_i rt hrt
      split_ifs with h4
      · refine ⟨_, rfl, ?_, ⟨plugin.URL, ?_⟩, _, _, rfl, ?_, ?_⟩
        · simp [tcpFailed, hrt, h4]
        · simp [addEntry, FormatBool, tcpTarget]
        · simp [tcpFailed, hrt, h4]
        · intro _
          exact ⟨plugin.Number, _, by
            show ErrorColor (plugin.Number ++ (" [NOK] ".toList ++ "TCP:".toList) ++ _ ++ _ ++ _
              ++ _ ++ _ ++ _) = _
            simp only [List.append_assoc]
            rfl⟩
      · refine ⟨_, rfl, ?_, ⟨tcpTarget plugin port, ?_⟩, _, _, rfl, ?_, ?_⟩
        · simp [tcpFailed, hrt, h4, h1']
        · simp [addEntry, FormatBool, tcpTarget]
        · intro _; rfl
        · simp [tcpFailed, hrt, h4, h1']
    · rename_i hrt
      refine ⟨_, rfl, ?_, ⟨tcpTarget plugin port, ?_⟩, _, _, rfl, ?_, ?_⟩
      · simp [tcpFailed, hrt, h1']
      · simp [addEntry, FormatBool, tcpTarget]
      · intro _; rfl
      · simp [tcpFailed, hrt, h1']

/-- With the ceiling in range, an HTTP check does not fail exactly when the pass
condition of the specification holds. -/
theorem httpFailed_eq_false_iff (plugin : Check) (net : NetworkOutcome) (elapsed : Int)
    (hrt : ∀ r, plugin.ResponseTime = some r → 0 ≤ r ∧ r ≤ 9223372036854)
    (he0 : 0 ≤ elapsed) (he : elapsed < 2 ^ 63) :
    httpFailed plugin net elapsed = false ↔ HTTPPasses plugin net elapsed := by
  cases net with
  | transportError =>
    simp [httpFailed, HTTPPasses]
  | response statusCode content =>
    have hs : plugin.StatusCode.any (fun sc => sc != statusCode) = false ↔
        ∀ sc, plugin.StatusCode = some sc → sc = statusCode := by
      cases plugin.StatusCode <;> simp
    have hm : plugin.Match.any (fun m => !Contains content m) = false ↔
        ∀ m, plugin.Match = some m → IsSubstring m content := by
      cases plugin.Match <;> simp [← Contains_iff]
    have ht := timeAny_eq_false_iff plugin.ResponseTime elapsed hrt he0 he
    unfold httpFailed HTTPPasses
    simp only [Bool.or_eq_false_iff, hs, hm, ht, NetworkOutcome.response.injEq]
    constructor
    · rintro ⟨⟨h1, h2⟩, h3⟩
      exact ⟨statusCode, content, ⟨rfl, rfl⟩, h1, h2, h3⟩
    · rintro ⟨sc, c, ⟨rfl, rfl⟩, h1, h2, h3⟩
      exact ⟨⟨h1, h2⟩, h3⟩

/-- With "http" in the url the loop body is the HTTP branch. -/
theorem loopBody_http (y : Config) (plugin : Check) (o : Outcome) (st : State)
    (hurl : IsSubstring "http".toList plugin.URL) :
    loopBody y plugin o st = httpCheck y plugin o (printSeparator plugin st) := by
  unfold loopBody
  dsimp only
  rw [if_pos ((Contains_iff _ _).2 hurl)]

/-- Without "http" in the url the loop body is the TCP branch if the tcp host is
not empty, and does nothing more otherwise. -/
theorem loopBody_not_http (y : Config) (plugin : Check) (o : Outcome) (st : State)
    (hurl : ¬ IsSubstring "http".toList plugin.URL) :
    loopBody y plugin o st =
      if plugin.TCP ≠ [] then tcpCheck plugin o (printSeparator plugin st)
      else .ok (printSeparator plugin st) := by
  unfold loopBody
  dsimp only
  rw [if_neg (fun h => hurl ((Contains_iff _ _).1 h))]

/-- The loop body on a check that executes: it returns, the flag becomes the old
flag or the failure of the check, and the entries appended carry the number of
the check, one if it has a shape and none otherwise. -/
theorem loopBody_spec (y : Config) (plugin : Check) (o : Outcome) (st : State)
    (hex : Executes plugin o = true) :
    ∃ st', loopBody y plugin o st = .ok st' ∧
      st'.hostUnreachable = (st.hostUnreachable || checkFailed plugin o) ∧
      ∃ ext, st'.results = st.results ++ ext ∧
        ext.map (fun e => e.Number) = (if hasShape plugin then [plugin.Number] else []) ∧
        ∀ e ∈ ext, e.Status = "false".toList := by
  unfold loopBody
  dsimp only
  unfold Executes at hex
  unfold checkFailed hasShape
  by_cases hu : Contains plugin.URL "http".toList = true
  · rw [if_pos hu] at hex
    rw [if_pos hu, if_pos hu]
    simp only [Bool.and_eq_true, Option.isSome_iff_exists] at hex
    obtain ⟨⟨verbo, hv⟩, net, hnet⟩ := hex
    obtain ⟨st', h1, h2, h3, -⟩ :=
      httpCheck_spec y plugin o (printSeparator plugin st) verbo net hv hnet
    refine ⟨st', h1, ?_, [⟨plugin.Number, plugin.URL, "false".toList,
      DurationString o.elapsed⟩], ?_, ?_, ?_⟩
    · rw [hnet]
      simpa using h2
    · simpa using h3
    · rw [hu]; simp
    · simp
  · rw [if_neg hu] at hex
    rw [if_neg hu, if_neg hu]
    have hu' : Contains plugin.URL "http".toList = false := by simpa using hu
    by_cases ht : plugin.TCP = []
    · have ht' : ¬ plugin.TCP ≠ [] := fun h => h ht
      rw [if_neg ht', if_neg ht']
      refine ⟨printSeparator plugin st, rfl, by simp, [], by simp, ?_, by simp⟩
      rw [hu']; simp [ht]
    · have ht' : plugin.TCP ≠ [] := ht
      rw [if_pos ht'] at hex
      rw [if_pos ht', if_pos ht']
      rw [Option.isSome_iff_exists] at hex
      obtain ⟨port, hp⟩ := hex
      obtain ⟨st', h1, h2, ⟨target, h3⟩, -⟩ :=
        tcpCheck_spec plugin o (printSeparator plugin st) port hp
      refine ⟨st', h1, ?_, [⟨plugin.Number, target, "false".toList,
        DurationString o.elapsed⟩], ?_, ?_, ?_⟩
      · simpa using h2
      · simpa using h3
      · rw [hu']; simp [ht]
      · simp

/-- When the HTTP branch returns, it has appended exactly one entry, whose
resource is the url. -/
theorem httpCheck_ok_entry (y : Config) (plugin : Check) (o : Outcome) (st st' : State)
    (h : httpCheck y plugin o st = .ok st') :
    ∃ e : CheckOutput, st'.results = st.results ++ [e] ∧ e.Resource = plugin.URL := by
  cases hv : plugin.Verbo with
  | none => simp [httpCheck, hv] at h
  | some verbo =>
    cases hnet : o.http with
    | none =>
      unfold httpCheck at h
      rw [hv] at h
      simp only [hnet] at h
      split_ifs at h
    | some net =>
      obtain ⟨st2, h1, -, h3, -⟩ := httpCheck_spec y plugin o st verbo net hv hnet
      rw [h] at h1
      cases h1
      exact ⟨_, h3, rfl⟩

/-- When the loop body returns, the check was executed: nothing was dereferenced
that was nil. -/
theorem loopBody_ok_executes (y : Config) (plugin : Check) (o : Outcome) (st st' : State)
    (h : loopBody y plugin o st = .ok st') : Executes plugin o = true := by
  unfold loopBody at h
  dsimp only at h
  unfold Executes
  by_cases hu : Contains plugin.URL "http".toList = true
  · rw [if_pos hu] at h ⊢
    cases hv : plugin.Verbo with
    | none => simp [httpCheck, hv] at h
    | some verbo =>
      cases hnet : o.http with
      | none =>
        unfold httpCheck at h
        rw [hv] at h
        simp only [hnet] at h
        split_ifs at h
      | some net => rfl
  · rw [if_neg hu] at h ⊢
    by_cases ht : plugin.TCP ≠ []
    · rw [if_pos ht] at h ⊢
      cases hp : plugin.Port with
      | none => simp [tcpCheck, hp] at h
      | some port => rfl
    · rw [if_neg ht]

/-! ## Lemmas on the run -/

/-- The loop on checks that all execute: it returns, the flag is raised exactly if
it was raised before or some check failed, and the numbers of the entries
appended are those of the checks that have a shape, in order. -/
theorem runChecks_spec (y : Config) (env : Nat → Outcome) (cs : List Check) :
    ∀ (k : Nat) (st : State),
      (∀ i c, cs[i]? = some c → Executes c (env (k + i)) = true) →
      ∃ st', runChecks y env k cs st = .ok st' ∧
        (st'.hostUnreachable = true ↔
          st.hostUnreachable = true ∨ ∃ i c, cs[i]? = some c ∧ checkFailed c (env (k + i)) = true) ∧
        ∃ ext, st'.results = st.results ++ ext ∧
          ext.map (fun e => e.Number) = (cs.filter hasShape).map (fun c => c.Number) := by
  induction cs with
  | nil =>
    intro k st _
    exact ⟨st, rfl, by simp, [], by simp, by simp⟩
  | cons c cs ih =>
    intro k st hex
    obtain ⟨st1, h1, hf1, ext1, hr1, hn1, -⟩ :=
      loopBody_spec y c (env k) st (by simpa using hex 0 c (by simp))
    obtain ⟨st2, h2, hf2, ext2, hr2, hn2⟩ := ih (k + 1) st1 (by
      intro i d hd
      have := hex (i + 1) d (by simpa using hd)
      rwa [show k + 1 + i = k + (i + 1) by omega])
    refine ⟨st2, by simp [runChecks, h1, h2], ?_, ext1 ++ ext2, ?_, ?_⟩
    · rw [hf2, hf1]
      constructor
      · rintro (h | ⟨i, d, hd, hfail⟩)
        · simp only [Bool.or_eq_true] at h
          rcases h with h | h
          · exact Or.inl h
          · exact Or.inr ⟨0, c, by simp, by simpa using h⟩
        · exact Or.inr ⟨i + 1, d, by simpa using hd, by
            rwa [show k + (i + 1) = k + 1 + i by omega]⟩
      · rintro (h | ⟨i, d, hd, hfail⟩)
        · exact Or.inl (by simp [h])
        · cases i with
          | zero =>
            simp only [List.getElem?_cons_zero, Option.some.injEq] at hd
            subst hd
            exact Or.inl (by simpa using Or.inr hfail)
          | succ i =>
            exact Or.inr ⟨i, d, by simpa using hd, by
              rwa [show k + 1 + i = k + (i + 1) by omega]⟩
    · rw [hr2, hr1, List.append_assoc]
    · rw [List.map_append, hn1, hn2, List.filter_cons]
      split_ifs <;> simp

/-- The loop over `pre ++ post` is the loop over `pre` followed by the loop over
`post`. -/
theorem runChecks_append (y : Config) (env : Nat → Outcome) (pre post : List Check) :
    ∀ (k : Nat) (st : State),
      runChecks y env k (pre ++ post) st =
        match runChecks y env k pre st with
        | .ok mid => runChecks y env (k + pre.length) post mid
        | .error p => .error p := by
  induction pre with
  | nil => intro k st; simp [runChecks]
  | cons c cs ih =>
    intro k st
    simp only [List.cons_append, runChecks, List.length_cons]
    cases h : loopBody y c (env k) st with
    | error p => simp
    | ok st1 =>
      simp only [List.append_eq]
      rw [ih (k + 1) st1, show k + 1 + cs.length = k + (cs.length + 1) by omega]

/-- When the loop returns, the entries it started from are the first entries of
the result, and every entry added has the status "false". -/
theorem runChecks_results_grow (y : Config) (env : Nat → Outcome) (cs : List Check) :
    ∀ (k : Nat) (st st' : State), runChecks y env k cs st = .ok st' →
      ∃ ext, st'.results = st.results ++ ext ∧ ∀ e ∈ ext, e.Status = "false".toList := by
  induction cs with
  | nil =>
    intro k st st' h
    simp only [runChecks, Except.ok.injEq] at h
    exact ⟨[], by simp [h], by simp⟩
  | cons c cs ih =>
    intro k st st' h
    simp only [runChecks] at h
    cases h1 : loopBody y c (env k) st with
    | error p => simp [h1] at h
    | ok st1 =>
      rw [h1] at h
      obtain ⟨st2, h2, -, ext1, hr1, -, hs1⟩ :=
        loopBody_spec y c (env k) st (loopBody_ok_executes y c (env k) st st1 h1)
      rw [h1] at h2
      cases h2
      obtain ⟨ext2, hr2, hs2⟩ := ih (k + 1) st1 st' h
      refine ⟨ext1 ++ ext2, by rw [hr2, hr1, List.append_assoc], ?_⟩
      intro e he
      rcases List.mem_append.1 he with h | h
      · exact hs1 e h
      · exact hs2 e h

/-- The run on checks that all execute reaches the exit decision: the exit code is
1 for a raised flag and 0 otherwise, the flag is raised exactly if some check
failed, and the numbers written are those of the checks that have a shape. -/
theorem main_spec (y : Config) (env : Nat → Outcome)
    (hex : ∀ i c, y.Checks[i]? = some c → Executes c (env i) = true) :
    ∃ st, runChecks y env 0 y.Checks initState = .ok st ∧
      main y env = .exited (if st.hostUnreachable then 1 else 0) st.results st.stdout ∧
      (st.hostUnreachable = true ↔
        ∃ i c, y.Checks[i]? = some c ∧ checkFailed c (env i) = true) ∧
      st.results.map (fun e => e.Number) = (y.Checks.filter hasShape).map (fun c => c.Number) := by
  obtain ⟨st, h1, h2, ext, h3, h4⟩ := runChecks_spec y env y.Checks 0 initState (by simpa using hex)
  refine ⟨st, h1, ?_, ?_, ?_⟩
  · unfold main
    rw [h1]
    dsimp only
    split_ifs <;> rfl
  · simpa [initState] using h2
  · rw [h3]
    simpa [initState] using h4

/-- When the loop returns, every check of the list was executed. -/
theorem runChecks_ok_executes (y : Config) (env : Nat → Outcome) (cs : List Check) :
    ∀ (k : Nat) (st st' : State), runChecks y env k cs st = .ok st' →
      ∀ i c, cs[i]? = some c → Executes c (env (k + i)) = true := by
  induction cs with
  | nil =>
    intro k st st' _ i c hc
    simp at hc
  | cons d cs ih =>
    intro k st st' h i c hc
    simp only [runChecks] at h
    cases h1 : loopBody y d (env k) st with
    | error p => simp [h1] at h
    | ok st1 =>
      rw [h1] at h
      cases i with
      | zero =>
        simp only [List.getElem?_cons_zero, Option.some.injEq] at hc
        subst hc
        exact loopBody_ok_executes y d (env k) st st1 h1
      | succ i =>
        have := ih (k + 1) st1 st' h i c (by simpa using hc)
        rwa [show k + 1 + i = k + (i + 1) by omega] at this

/-- When the process reaches its exit statement, every check was executed. -/
theorem main_exited_executes (y : Config) (env : Nat → Outcome) (code : Nat)
    (rs : List CheckOutput) (out : List GoString) (h : main y env = .exited code rs out) :
    ∀ i c, y.Checks[i]? = some c → Executes c (env i) = true := by
  unfold main at h
  cases hrun : runChecks y env 0 y.Checks initState with
  | error p => simp [hrun] at h
  | ok st =>
    intro i c hc
    simpa using runChecks_ok_executes y env y.Checks 0 initState st hrun i c hc

/-- Whatever the process writes, every entry has `available` equal to "false". -/
theorem main_exited_status (y : Config) (env : Nat → Outcome) (code : Nat)
    (rs : List CheckOutput) (out : List GoString) (h : main y env = .exited code rs out) :
    ∀ e ∈ rs, e.Status = "false".toList := by
  unfold main at h
  cases hrun : runChecks y env 0 y.Checks initState with
  | error p => simp [hrun] at h
  | ok st =>
    rw [hrun] at h
    obtain ⟨ext, hext, hstatus⟩ := runChecks_results_grow y env y.Checks 0 initState st hrun
    have hrs : rs = ext := by
      dsimp only at h
      split_ifs at h <;>
        · simp only [ProcessResult.exited.injEq] at h
          rw [← h.2.1, hext]
          simp [initState]
    rw [hrs]
    exact hstatus

/-- The exit decision of runs that do not panic: the process reaches its exit
statement exactly when each check is executed; whenever it does, the exit code
is 1 if and only if some check failed as the program computes failure (its own
time test included), and 0 if and only if none did; with no checks the exit
code is 0. -/
theorem main_exit_decision (y : Config) (env : Nat → Outcome) :
    ((∃ code rs out, main y env = .exited code rs out) ↔
      ∀ i c, y.Checks[i]? = some c → Executes c (env i) = true) ∧
    (∀ code rs out, main y env = .exited code rs out →
      (code = 1 ↔ ∃ i c, y.Checks[i]? = some c ∧ checkFailed c (env i) = true) ∧
      (code = 0 ↔ ¬ ∃ i c, y.Checks[i]? = some c ∧ checkFailed c (env i) = true)) ∧
    (y.Checks = [] → (main y env).exitCode = 0) := by
  refine ⟨⟨?_, ?_⟩, ?_, ?_⟩
  · rintro ⟨code, rs, out, h⟩
    exact main_exited_executes y env code rs out h
  · intro hex
    obtain ⟨st, -, h2, -⟩ := main_spec y env hex
    exact ⟨_, _, _, h2⟩
  · intro code rs out h
    obtain ⟨st, -, h2, h3, -⟩ := main_spec y env (main_exited_executes y env code rs out h)
    rw [h2] at h
    simp only [ProcessResult.exited.injEq] at h
    rw [← h3, ← h.1]
    cases st.hostUnreachable <;> simp
  · intro hnil
    unfold main
    rw [hnil]
    rfl

/-- Every check of the example configuration executes. -/
theorem exampleConfig_executes :
    ∀ (i : Nat) (c : Check), exampleConfig.Checks[i]? = some c → Executes c okOutcome = true := by
  intro i c h
  rcases i with _ | _ | _ | i
  · simp only [exampleConfig, List.getElem?_cons_zero, Option.some.injEq] at h
    subst h; decide
  · simp only [exampleConfig, List.getElem?_cons_succ, List.getElem?_cons_zero,
      Option.some.injEq] at h
    subst h; decide
  · simp only [exampleConfig, List.getElem?_cons_succ, List.getElem?_cons_zero,
      Option.some.injEq] at h
    subst h; decide
  · simp [exampleConfig] at h

/-! ## The claims -/

/-- C1: for an HTTP check (url contains "http", method present) and every network
outcome (a transport error, or a response with any status code and body, and a
measured elapsed time, a non-negative `int64`), with a response_time, when
present, between 0 and 9223372036854 ms: the check passes (its [OK] line is
printed, the unreachable flag is left as it was) if and only if there was no
transport error, the status code is absent or equals the response status, the
match is absent or is a substring of the body, and the response_time is absent
or the elapsed time does not exceed it. In every other case the check fails: a
[NOK] line is printed and the flag is set. With the three predicates absent and
no transport error the check passes; a status mismatch fails it whatever the
other predicates say. -/
theorem http_check_passes_iff (y : Config) (plugin : Check) (o : Outcome) (st : State)
    (verbo : GoString) (net : NetworkOutcome)
    (hurl : IsSubstring "http".toList plugin.URL)
    (hverbo : plugin.Verbo = some verbo)
    (hnet : o.http = some net)
    (hrt : ∀ r, plugin.ResponseTime = some r → 0 ≤ r ∧ r ≤ 9223372036854)
    (he0 : 0 ≤ o.elapsed) (he : o.elapsed < 2 ^ 63) :
    ∃ st', loopBody y plugin o st = .ok st' ∧
      (PassedWith (httpOKLine plugin) st st' ↔ HTTPPasses plugin net o.elapsed) ∧
      (¬ HTTPPasses plugin net o.elapsed → FailedIn st') ∧
      (net ≠ .transportError → plugin.StatusCode = none → plugin.Match = none →
        plugin.ResponseTime = none → PassedWith (httpOKLine plugin) st st') ∧
      (∀ sc statusCode content, plugin.StatusCode = some sc →
        net = .response statusCode content → sc ≠ statusCode → FailedIn st') := by
  obtain ⟨st', h1, h2, -, out, line, h4, h5, h6⟩ :=
    httpCheck_spec y plugin o (printSeparator plugin st) verbo net hverbo hnet
  have hiff := httpFailed_eq_false_iff plugin net o.elapsed hrt he0 he
  have hpass : HTTPPasses plugin net o.elapsed → PassedWith (httpOKLine plugin) st st' := by
    intro hp
    have hf := hiff.2 hp
    refine ⟨?_, ?_⟩
    · rw [h4, h5 hf]; simp
    · rw [h2, hf]; simp
  have hfail : ¬ HTTPPasses plugin net o.elapsed → FailedIn st' := by
    intro hp
    have hf : httpFailed plugin net o.elapsed = true := by
      cases h : httpFailed plugin net o.elapsed
      · exact absurd (hiff.1 h) hp
      · rfl
    obtain ⟨a, b, hl⟩ := h6 hf
    refine ⟨?_, a, b, ?_⟩
    · rw [h2, hf]; simp
    · rw [h4, hl]; simp
  refine ⟨st', (loopBody_http y plugin o st hurl).trans h1, ⟨?_, hpass⟩, hfail, ?_, ?_⟩
  · intro hp
    by_contra hn
    exact not_failed_and_passed _ st st' ⟨hfail hn, hp⟩
  · intro hne hs hm ht
    cases net with
    | transportError => exact absurd rfl hne
    | response statusCode content =>
      exact hpass ⟨statusCode, content, rfl, by simp [hs], by simp [hm], by simp [ht]⟩
  · intro sc statusCode content hsc hresp hne
    apply hfail
    rintro ⟨statusCode', content', hresp', hstatus, -⟩
    rw [hresp] at hresp'
    simp only [NetworkOutcome.response.injEq] at hresp'
    exact hne ((hstatus sc hsc).trans hresp'.1.symm)

/-- The example scenario of C1: status 200 expected, and received with body "ok"
within 50ms of a ceiling of 100ms; the check passes. -/
theorem http_check_passes_iff_witness :
    ∃ st', loopBody exampleConfig healthCheck okOutcome initState = .ok st' ∧
      HTTPPasses healthCheck (.response 200 "ok".toList) okOutcome.elapsed ∧
      PassedWith (httpOKLine healthCheck) initState st' := by
  obtain ⟨st', h, hiff, -⟩ :=
    http_check_passes_iff exampleConfig healthCheck okOutcome initState "GET".toList
      (.response 200 "ok".toList)
      ⟨[], "://example.test/health".toList, rfl⟩ rfl rfl
      (by intro r hr
          have : r = 100 := (Option.some.inj hr).symm
          subst this
          decide)
      (by decide) (by decide)
  have hp : HTTPPasses healthCheck (.response 200 "ok".toList) okOutcome.elapsed := by
    refine ⟨200, "ok".toList, rfl, ?_, ?_, ?_⟩
    · intro sc hsc
      exact (Option.some.inj hsc).symm
    · intro m hm
      cases hm
    · intro r hr
      have : r = 100 := (Option.some.inj hr).symm
      subst this
      decide
  exact ⟨st', h, hp, hiff.2 hp⟩

/-- C2, failing inputs: the claim gives exit code 0 to a run in which no executed
check failed and 1 to a run in which one did. A configuration whose only check
is an HTTP check without `verbo` ends with exit status 2 (a panic at line 107),
although no check failed; a configuration whose first check fails (a TCP
connection after 50ms against a ceiling of 10ms sets the unreachable flag) and
whose second check has no `verbo` ends with exit status 2 as well, not 1; and
a configuration whose only check has a response_time of 10000000000000 ms and
is answered 200 after 50ms exits with code 1, although the check meets the pass
condition of the specification (the ceiling, compared as exact integers, is not
exceeded). -/
theorem exit_code_wrong_on_panic_and_overflow :
    main noVerboConfig (fun _ => okOutcome) = .panicked (.nilDereference 107) ∧
    (main noVerboConfig (fun _ => okOutcome)).exitCode = 2 ∧
    (∃ st, runChecks failThenPanicConfig (fun _ => okOutcome) 0 [tcpExample] initState = .ok st ∧
      st.hostUnreachable = true) ∧
    (main failThenPanicConfig (fun _ => okOutcome)).exitCode = 2 ∧
    HTTPPasses hugeCeilingCheck (.response 200 "ok".toList) okOutcome.elapsed ∧
    (main hugeCeilingConfig (fun _ => okOutcome)).exitCode = 1 := by
  refine ⟨rfl, rfl, ⟨_, rfl, rfl⟩, rfl, ?_, rfl⟩
  refine ⟨200, "ok".toList, rfl, ?_, ?_, ?_⟩
  · intro sc hsc
    exact (Option.some.inj hsc).symm
  · intro m hm
    cases hm
  · intro r hr
    have : r = 10000000000000 := (Option.some.inj hr).symm
    subst this
    decide

/-- C3: for every configuration and every sequence of outcomes in which each check
is executed, output is written; and whatever list of entries is written has, by
number and in order, exactly one entry per check definition of HTTP or TCP
shape. Definition by definition: the entries present when a definition is
reached are the first entries of the written list, they are followed by what
that definition appends (one entry with its number if it has a shape, nothing
otherwise), then by what the later definitions append. The function `addEntry`
returns its input list with one entry, carrying the given number, added at the
end. -/
theorem results_follow_definitions (y : Config) (env : Nat → Outcome) :
    ((∀ i c, y.Checks[i]? = some c → Executes c (env i) = true) →
      ∃ code rs out, main y env = .exited code rs out) ∧
    (∀ code rs out, main y env = .exited code rs out →
      rs.map (fun e => e.Number) = (y.Checks.filter hasShape).map (fun c => c.Number) ∧
      ∀ pre c post, y.Checks = pre ++ c :: post →
        ∃ mid own later, runChecks y env 0 pre initState = .ok mid ∧
          rs = mid.results ++ own ++ later ∧
          own.map (fun e => e.Number) = if hasShape c then [c.Number] else []) ∧
    (∀ results url active elapsed number,
      ∃ e : CheckOutput, addEntry results url active elapsed number = results ++ [e] ∧
        e.Number = number) := by
  refine ⟨?_, ?_, ?_⟩
  · intro hex
    obtain ⟨st, -, h2, -⟩ := main_spec y env hex
    exact ⟨_, _, _, h2⟩
  · intro code rs out h
    obtain ⟨st, h1, h2, -, h4⟩ := main_spec y env (main_exited_executes y env code rs out h)
    rw [h2] at h
    simp only [ProcessResult.exited.injEq] at h
    rw [← h.2.1]
    refine ⟨h4, ?_⟩
    intro pre c post hsplit
    rw [hsplit, runChecks_append] at h1
    cases hpre : runChecks y env 0 pre initState with
    | error p => simp [hpre] at h1
    | ok mid =>
      rw [hpre] at h1
      simp only [runChecks, Nat.zero_add] at h1
      cases hc : loopBody y c (env pre.length) mid with
      | error p => simp [hc] at h1
      | ok st1 =>
        rw [hc] at h1
        obtain ⟨st2, h5, -, own, hown, hnum, -⟩ :=
          loopBody_spec y c (env pre.length) mid (loopBody_ok_executes y c _ mid st1 hc)
        rw [hc] at h5
        cases h5
        obtain ⟨later, hlater, -⟩ := runChecks_results_grow y env post _ st1 st h1
        exact ⟨mid, own, later, rfl, by rw [hlater, hown], hnum⟩
  · intro results url active elapsed number
    exact ⟨_, rfl, rfl⟩

/-- The example configuration of C3: entries for "1.0" and "2.1", none for the
definition of neither shape. -/
theorem results_follow_definitions_witness :
    ∃ code rs out, main exampleConfig (fun _ => okOutcome) = .exited code rs out ∧
      rs.map (fun e => e.Number) = ["1.0".toList, "2.1".toList] := by
  have h := results_follow_definitions exampleConfig (fun _ => okOutcome)
  obtain ⟨code, rs, out, hmain⟩ := h.1 exampleConfig_executes
  exact ⟨code, rs, out, hmain, ((h.2.1 code rs out hmain).1).trans (by decide)⟩

/-- C4: a TCP check (url without "http", tcp host not empty, port present), whose
response_time, when present, is between 0 and 9223372036854 ms, and whose
measured elapsed time is a non-negative `int64`: if resolving or dialing fails
the check fails; otherwise, if the response_time is present and the elapsed
time exceeds it, the check fails; otherwise the check passes. So a refused
connection is a failure and a connection with no response_time is a pass. A
check never both fails and passes. -/
theorem tcp_check_verdict (y : Config) (plugin : Check) (o : Outcome) (st : State) (port : Int)
    (hurl : ¬ IsSubstring "http".toList plugin.URL)
    (htcp : plugin.TCP ≠ [])
    (hport : plugin.Port = some port)
    (hrt : ∀ r, plugin.ResponseTime = some r → 0 ≤ r ∧ r ≤ 9223372036854)
    (he0 : 0 ≤ o.elapsed) (he : o.elapsed < 2 ^ 63) :
    ∃ st', loopBody y plugin o st = .ok st' ∧
      (o.resolveErr = true ∨ o.dialErr = true → FailedIn st') ∧
      (o.resolveErr = false → o.dialErr = false →
        (∃ r, plugin.ResponseTime = some r ∧ r * 1000000 < o.elapsed) → FailedIn st') ∧
      (o.resolveErr = false → o.dialErr = false →
        (∀ r, plugin.ResponseTime = some r → o.elapsed ≤ r * 1000000) →
        PassedWith (tcpOKLine plugin port) st st') ∧
      (o.resolveErr = false → o.dialErr = false → plugin.ResponseTime = none →
        PassedWith (tcpOKLine plugin port) st st') ∧
      ¬ (FailedIn st' ∧ PassedWith (tcpOKLine plugin port) st st') := by
  obtain ⟨st', h1, h2, -, out, line, h4, h5, h6⟩ :=
    tcpCheck_spec plugin o (printSeparator plugin st) port hport
  have ht := timeAny_eq_false_iff plugin.ResponseTime o.elapsed hrt he0 he
  have hfail : tcpFailed plugin o = true → FailedIn st' := by
    intro hf
    obtain ⟨a, b, hl⟩ := h6 hf
    refine ⟨?_, a, b, ?_⟩
    · rw [h2, hf]; simp
    · rw [h4, hl]; simp
  have hpass : tcpFailed plugin o = false → PassedWith (tcpOKLine plugin port) st st' := by
    intro hf
    refine ⟨?_, ?_⟩
    · rw [h4, h5 hf]; simp
    · rw [h2, hf]; simp
  refine ⟨st', ?_, ?_, ?_, ?_, ?_, not_failed_and_passed _ st st'⟩
  · rw [loopBody_not_http y plugin o st hurl, if_pos htcp]
    exact h1
  · intro herr
    apply hfail
    unfold tcpFailed
    rcases herr with h | h <;> simp [h]
  · rintro - - ⟨r, hr, hlt⟩
    apply hfail
    cases hany : plugin.ResponseTime.any (fun r => responseTimeExceeded r o.elapsed)
    · have := ht.1 hany r hr
      omega
    · simp [tcpFailed, hany]
  · intro hr hd hle
    apply hpass
    simp [tcpFailed, hr, hd, ht.2 hle]
  · intro hr hd hnone
    apply hpass
    simp [tcpFailed, hr, hd, hnone]

/-- The example TCP check of C4: connected after 50ms against a ceiling of 10ms,
it fails. -/
theorem tcp_check_verdict_witness :
    ∃ st', loopBody exampleConfig tcpExample okOutcome initState = .ok st' ∧ FailedIn st' := by
  obtain ⟨st', h, -, hslow, -⟩ :=
    tcp_check_verdict exampleConfig tcpExample okOutcome initState 80
      (fun h => by
        have := (Contains_iff _ _).2 h
        revert this
        decide)
      (by decide) rfl
      (by intro r hr
          have : r = 10 := (Option.some.inj hr).symm
          subst this
          decide)
      (by decide) (by decide)
  exact ⟨st', h, hslow rfl rfl ⟨10, rfl, by decide⟩⟩

/-- C5, failing inputs: the HTTP check without `verbo` panics at line 107, the TCP
check without `port` at line 176, the HTTP check whose request could not be
built at line 113 (at line 109 when its method is "POST"); the run of a
configuration holding such a check ends in that panic with exit status 2, not
in an unreachable result and a written output. -/
theorem absent_method_or_port_panics :
    loopBody exampleConfig noVerboCheck okOutcome initState = .error (.nilDereference 107) ∧
    loopBody exampleConfig noPortCheck okOutcome initState = .error (.nilDereference 176) ∧
    loopBody exampleConfig healthCheck { okOutcome with http := none } initState
      = .error (.nilDereference 113) ∧
    loopBody exampleConfig { healthCheck with Verbo := some "POST".toList }
      { okOutcome with http := none } initState = .error (.nilDereference 109) ∧
    main { exampleConfig with Checks := [healthCheck, noVerboCheck] } (fun _ => okOutcome)
      = .panicked (.nilDereference 107) ∧
    (main { exampleConfig with Checks := [healthCheck, noVerboCheck] }
      (fun _ => okOutcome)).exitCode = 2 :=
  ⟨rfl, rfl, rfl, rfl, rfl, rfl⟩

/-- C6, failing input: the TCP check of 127.0.0.1:80 that connects after 50ms
against a ceiling of 10ms fails, and its entry names the (empty) url as
resource, not "127.0.0.1:80". -/
theorem tcp_time_exceeded_entry_names_url :
    ∃ st', loopBody exampleConfig tcpExample okOutcome initState = .ok st' ∧
      st'.hostUnreachable = true ∧
      st'.results = [⟨"2.1".toList, [], "false".toList, "50ms".toList⟩] ∧
      tcpTarget tcpExample 80 = "127.0.0.1:80".toList :=
  ⟨_, rfl, rfl, rfl, rfl⟩

/-- C7, failing input: the HTTP check of the example scenario passes (flag not
set, [OK] line printed), and its entry is written with `available` equal to
"false". -/
theorem passed_check_written_not_available :
    ∃ st', loopBody exampleConfig healthCheck okOutcome initState = .ok st' ∧
      st'.hostUnreachable = false ∧
      st'.stdout.getLast? = some (httpOKLine healthCheck) ∧
      st'.results = [⟨"1.0".toList, "http://example.test/health".toList, "false".toList,
        "50ms".toList⟩] :=
  ⟨_, rfl, rfl, rfl, rfl⟩

/-- C8, failing input: with a response_time of 10000000000000 ms and an elapsed
time of 50ms the time test of the program holds, although 50ms does not exceed
the ceiling as exact integers; the HTTP check fails. -/
theorem huge_ceiling_fails_fast_response :
    responseTimeExceeded 10000000000000 50000000 = true ∧
    ¬ ((50000000 : Int) > 10000000000000 * 1000000) ∧
    ∃ st', loopBody exampleConfig hugeCeilingCheck okOutcome initState = .ok st' ∧
      st'.hostUnreachable = true :=
  ⟨by decide, by decide, _, rfl, rfl⟩

/-- C9: a check definition whose url and tcp host are both empty, whatever its
other fields and whatever the state it is reached in, is executed without a
panic, appends no entry and leaves the unreachable flag as it was. -/
theorem empty_definition_is_skipped (y : Config) (plugin : Check) (o : Outcome) (st : State)
    (hurl : plugin.URL = []) (htcp : plugin.TCP = []) :
    ∃ st', loopBody y plugin o st = .ok st' ∧
      st'.results = st.results ∧ st'.hostUnreachable = st.hostUnreachable := by
  refine ⟨printSeparator plugin st, ?_, by simp, by simp⟩
  unfold loopBody
  dsimp only
  rw [hurl, htcp]
  rfl

/-- The example definition of C9, which carries a status code and a ceiling but
neither url nor tcp host. -/
theorem empty_definition_is_skipped_witness :
    ∃ st', loopBody exampleConfig emptyCheck okOutcome initState = .ok st' ∧
      st'.results = initState.results ∧ st'.hostUnreachable = initState.hostUnreachable :=
  empty_definition_is_skipped exampleConfig emptyCheck okOutcome initState rfl rfl

/-- C10: the loop body runs a definition as an HTTP check if its url contains
"http"; otherwise as a TCP check if its tcp host is not empty; otherwise it
skips it. So a definition whose url contains "http" and whose tcp host is not
empty is run once, as HTTP only: the result does not depend on the tcp host
and port, and a returning run appends one entry, for the url. A definition
whose url is not empty but does not contain "http", and whose tcp host is
empty, is skipped: no entry, the flag as it was. -/
theorem dispatch_rule (y : Config) (plugin : Check) (o : Outcome) (st : State) :
    (IsSubstring "http".toList plugin.URL →
      loopBody y plugin o st = httpCheck y plugin o (printSeparator plugin st)) ∧
    (¬ IsSubstring "http".toList plugin.URL → plugin.TCP ≠ [] →
      loopBody y plugin o st = tcpCheck plugin o (printSeparator plugin st)) ∧
    (¬ IsSubstring "http".toList plugin.URL → plugin.TCP = [] →
      loopBody y plugin o st = .ok (printSeparator plugin st)) ∧
    (IsSubstring "http".toList plugin.URL → plugin.TCP ≠ [] →
      (∀ (tcp : GoString) (port : Option Int),
        loopBody y { plugin with TCP := tcp, Port := port } o st = loopBody y plugin o st) ∧
      ∀ st', loopBody y plugin o st = .ok st' →
        ∃ e : CheckOutput, st'.results = st.results ++ [e] ∧ e.Resource = plugin.URL) ∧
    (plugin.URL ≠ [] → ¬ IsSubstring "http".toList plugin.URL → plugin.TCP = [] →
      ∃ st', loopBody y plugin o st = .ok st' ∧
        st'.results = st.results ∧ st'.hostUnreachable = st.hostUnreachable) := by
  refine ⟨loopBody_http y plugin o st, ?_, ?_, ?_, ?_⟩
  · intro hurl htcp
    rw [loopBody_not_http y plugin o st hurl, if_pos htcp]
  · intro hurl htcp
    rw [loopBody_not_http y plugin o st hurl, if_neg (fun h => h htcp)]
  · intro hurl _
    refine ⟨?_, ?_⟩
    · intro tcp port
      rw [loopBody_http y plugin o st hurl,
        loopBody_http y { plugin with TCP := tcp, Port := port } o st hurl]
      rfl
    · intro st' h
      rw [loopBody_http y plugin o st hurl] at h
      obtain ⟨e, h1, h2⟩ := httpCheck_ok_entry y plugin o _ st' h
      exact ⟨e, by simpa using h1, h2⟩
  · intro _ hurl htcp
    refine ⟨printSeparator plugin st, ?_, by simp, by simp⟩
    rw [loopBody_not_http y plugin o st hurl, if_neg (fun h => h htcp)]

/-- The example of C10: a definition with an "http" url and a tcp host is run by
the HTTP branch. -/
theorem dispatch_rule_witness :
    loopBody exampleConfig bothCheck okOutcome initState =
      httpCheck exampleConfig bothCheck okOutcome (printSeparator bothCheck initState) :=
  (dispatch_rule exampleConfig bothCheck okOutcome initState).1
    ⟨[], "://example.test/health".toList, rfl⟩

end Monitor
